import Mathlib

/-
Verification development for install-from-github.py.

The script installs prebuilt binaries from GitHub release assets.  The
definitions below are a shallow embedding of the script's pure logic
(asset selection, project-list resolution) and of its effectful pipeline
(catalog fetch, archive download, extraction), with the external world
(filesystem, network, subprocesses) represented by explicit environment
values.  Python string primitives are modelled by executable functions
over lists of characters.
-/

/-! ## String primitives

Python's `sub in s`, `s.split(sep)`, `s.strip()`, `s.endswith(sfx)` and
`os.path.basename`, modelled over `List Char` so that all predicates
evaluate by kernel reduction. -/

/-- Does the list `sub` occur at the very start of the second list?
Models the first step of Python substring search. -/
def startsL : List Char → List Char → Bool
  | [], _ => true
  | _ :: _, [] => false
  | a :: as, b :: bs => a == b && startsL as bs

/-- Does `sub` occur contiguously anywhere in the list?  Models Python
`sub in s` (case-sensitive literal substring containment). -/
def hasSubL (sub : List Char) : List Char → Bool
  | [] => startsL sub []
  | c :: cs => startsL sub (c :: cs) || hasSubL sub cs

/-- Python `sub in s` on strings: case-sensitive literal substring test. -/
def strContains (s sub : String) : Bool :=
  hasSubL sub.toList s.toList

/-- Split a character list at every occurrence of `sep`.  Models Python
`str.split(sep)` for a one-character separator: no collapsing, empty
fields kept, `[]` maps to one empty field. -/
def splitL (sep : Char) : List Char → List (List Char)
  | [] => [[]]
  | c :: cs =>
    let r := splitL sep cs
    if c == sep then [] :: r
    else match r with
      | [] => [[c]]
      | g :: gs => (c :: g) :: gs

/-- Python `s.split(sep)` on strings (one-character separator). -/
def pySplit (s : String) (sep : Char) : List String :=
  (splitL sep s.toList).map (fun l => String.mk l)

/-- Does the second list end with the first?  Helper for `strEndsWith`. -/
def endsL (s sfx : List Char) : Bool :=
  startsL sfx.reverse s.reverse

/-- Python `s.endswith(sfx)`. -/
def strEndsWith (s sfx : String) : Bool :=
  endsL s.toList sfx.toList

/-- Remove leading and trailing whitespace from a character list. -/
def trimL (s : List Char) : List Char :=
  ((s.dropWhile Char.isWhitespace).reverse.dropWhile Char.isWhitespace).reverse

/-- Python `s.strip()`. -/
def pyStrip (s : String) : String :=
  String.mk (trimL s.toList)

/-- Python `os.path.basename(url)`: the component after the last slash. -/
def basename (s : String) : String :=
  (pySplit s '/').getLastD s

/-! ## Constants (install-from-github.py lines 16-18) -/

/-- Line 16: `ACCEPT_FILTER = '64'`. -/
def ACCEPT_FILTER : String := "64"

/-- Line 18: the raw pipe-separated reject list.  Note the `$` characters
are part of the literal entries; Python matches them with `in`, not as
regular-expression anchors. -/
def IGNORE_FILTER_ARCHIVE : String :=
  "mac|macos|darwin|apple|win|bsd|arm|aarch|ppc|i686|sha256|deb$|rpm$|apk$|sig$|proxy-linux"

/-- Line 126: `IGNORE_FILTER_ARCHIVE.split('|')`, the list of reject
substrings actually used by the selection loop. -/
def ignoreList : List String :=
  pySplit IGNORE_FILTER_ARCHIVE '|'

/-! ## Data model -/

/-- One release asset as read from the catalog JSON: the `name` and
`browser_download_url` fields used at lines 124-125. -/
structure Asset where
  name : String
  browser_download_url : String
deriving Repr, DecidableEq

/-! ## Asset selection (download_and_extract_archive, lines 121-133)

The Python loop walks the catalog in order.  For each asset it tests the
accept substring and the reject substrings; on the FIRST asset passing
both it runs the preference chain and then unconditionally executes
`break` (the `break` at line 133 is indented under the outer `if`, not
inside the preference branches), so later catalog entries are never
examined once any accept/reject-qualifying asset has been seen. -/

/-- Line 126: the accept/reject test for one asset name. -/
def passesFilter (accept : String) (rejects : List String) (name : String) : Bool :=
  strContains name accept && !(rejects.any (fun r => strContains name r))

/-- Lines 121-133: the selection loop.  `download_url` starts as `None`;
on the first qualifying asset the preference chain may set it, and the
loop breaks either way. -/
def selectAsset (accept : String) (rejects : List String)
    (preferMusl appimage : Bool) : List Asset → Option Asset
  | [] => none
  | a :: rest =>
    if passesFilter accept rejects a.name then
      if preferMusl && strContains a.name "musl" then some a
      else if appimage && strContains a.name "AppImage" then some a
      else if !preferMusl && !appimage then some a
      else none
    else selectAsset accept rejects preferMusl appimage rest

/-! ## Catalog fetch (download_asset_list, lines 66-84) and orchestration
(main, lines 144-173)

The external world seen by one project's pipeline is captured by a
`ProjEnv`: whether the cache file already exists, how the HTTP GET of
the release catalog turns out, the asset list parsed from the catalog
JSON, and whether the wget and tar/unzip subprocesses succeed. -/

/-- Outcome of `requests.get` at line 72: either a response with some
status code, or a raised exception (caught at line 81). -/
inductive FetchOutcome where
  | responded (status : Nat)
  | raised
deriving Repr, DecidableEq

/-- The external world for one project's pipeline. -/
structure ProjEnv where
  cacheExists : Bool
  fetchOutcome : FetchOutcome
  assets : List Asset
  wgetOk : Bool
  extractOk : Bool
deriving Repr, DecidableEq

/-- Lines 66-84: `download_asset_list`.  The Python function returns
`None` on the dev-mode cache hit (bare `return` at line 68), `True`
after a 200 response, `False` on a non-200 status or a raised exception;
these three values are modelled as `Option Bool`. -/
def download_asset_list (devMode : Bool) (env : ProjEnv) : Option Bool :=
  if devMode && env.cacheExists then none
  else match env.fetchOutcome with
    | .responded status => if status == 200 then some true else some false
    | .raised => some false

/-- Whether `download_asset_list` writes the cache file: only the 200
branch (lines 73-75) opens the file for writing. -/
def cacheWritten (devMode : Bool) (env : ProjEnv) : Bool :=
  !(devMode && env.cacheExists) &&
    (match env.fetchOutcome with
      | .responded status => status == 200
      | .raised => false)

/-- Python truthiness of the `download_asset_list` result, as tested by
`if download_asset_list(...)` at line 172: `None` and `False` are falsy. -/
def truthy : Option Bool → Bool
  | some b => b
  | none => false

/-- Lines 93-98: the archive suffixes `extract_archive` dispatches on. -/
def knownSuffix (filename : String) : Bool :=
  strEndsWith filename ".tar.gz" || strEndsWith filename ".tar.xz" ||
    strEndsWith filename ".zip"

/-- Whether the `extract_archive` call crashes the process: line 103 runs
tar/unzip with `check=True`, so a failing decode subprocess raises an
uncaught `CalledProcessError`; an unrecognized suffix only warns (lines
99-101). -/
def extractCrashes (filename : String) (env : ProjEnv) : Bool :=
  knownSuffix filename && !env.extractOk

/-- Observable outcome of processing one project in the `main` loop
(lines 169-173): whether the network call was attempted, whether
`download_and_extract_archive` ran (and hence the selector was applied),
which asset it selected, and whether an uncaught subprocess exception
crashed the run. -/
structure ProjReport where
  networkCall : Bool
  ranFilter : Bool
  selected : Option Asset
  crashed : Bool
deriving Repr, DecidableEq

/-- Lines 172-173 together with `download_and_extract_archive` (lines
116-142): one project's pipeline.  If `download_asset_list` is falsy the
rest is skipped.  Otherwise the selector runs; with an asset selected
and dev mode off, wget runs with `check=True` (line 139, crash on
failure) and then `extract_archive` on the basename of the download URL
(lines 137, 140). -/
def processProject (devMode preferMusl appimage : Bool) (env : ProjEnv) : ProjReport :=
  if truthy (download_asset_list devMode env) then
    match selectAsset ACCEPT_FILTER ignoreList preferMusl appimage env.assets with
    | some a =>
        if devMode then ⟨true, true, some a, false⟩
        else if env.wgetOk then
          ⟨true, true, some a, extractCrashes (basename a.browser_download_url) env⟩
        else ⟨true, true, some a, true⟩
    | none => ⟨true, true, none, false⟩
  else ⟨!(devMode && env.cacheExists), false, none, false⟩

/-- The `for project in projects` loop of `main` (lines 169-173): names of
projects whose processing started, and whether an uncaught exception
aborted the loop (a crash stops the batch; Python exits with status 1). -/
def runProjects (devMode preferMusl appimage : Bool) (envs : String → ProjEnv) :
    List String → List String × Bool
  | [] => ([], false)
  | p :: rest =>
    let r := processProject devMode preferMusl appimage (envs p)
    if r.crashed then ([p], true)
    else
      let rr := runProjects devMode preferMusl appimage envs rest
      (p :: rr.1, rr.2)

/-- Lines 158-163: the resolved project list.  CLI arguments win; else
each line of projects.txt with non-empty `strip()` contributes
`line.strip().split('#', 1)[0]`.  `fileLines` is `none` when the file
does not exist. -/
def resolveProjects (cli : List String) (fileLines : Option (List String)) : List String :=
  if cli.isEmpty then
    match fileLines with
    | none => []
    | some lines =>
        (lines.filter (fun l => !(pyStrip l == ""))).map
          (fun l => ((pySplit (pyStrip l) '#').headD ""))
  else cli

/-- Result of a whole run of `main`: the process exit status, the projects
whose processing started, and whether the run was aborted by an uncaught
exception (in which case the interpreter exits with status 1). -/
structure RunResult where
  exitCode : Nat
  processed : List String
  aborted : Bool
deriving Repr, DecidableEq

/-- Lines 158-173: `main` after argument parsing.  An empty resolved list
dies with exit status 1 (lines 165-167); otherwise the project loop runs
and the process exits 0 unless an uncaught exception aborted it. -/
def runMain (cli : List String) (fileLines : Option (List String))
    (devMode preferMusl appimage : Bool) (envs : String → ProjEnv) : RunResult :=
  let projects := resolveProjects cli fileLines
  if projects.isEmpty then ⟨1, [], false⟩
  else
    let rr := runProjects devMode preferMusl appimage envs projects
    ⟨if rr.2 then 1 else 0, rr.1, rr.2⟩

/-! ## Archive extraction (extract_archive, lines 86-114)

The filesystem portions touched by `extract_archive` are the derived
destination directory (`folder`, the archive filename with its last
extension stripped, line 87) and the binary install directory
`BINARY_DIR`.  An archive is a list of entries, each a relative path
with its executable permission bit.  The tar/unzip subprocess succeeding
is the `tarOk` flag; with `check=True` (line 103) a failing decode
raises and the model returns an error. -/

/-- One filesystem entry inside an unpacked archive: its path relative to
the destination directory and whether `os.access(path, os.X_OK)` holds
(line 109). -/
structure Entry where
  path : String
  isExec : Bool
deriving Repr, DecidableEq

/-- The filesystem state seen by `extract_archive`: the derived
destination directory (existence and contents) and the basenames present
in `BINARY_DIR`. -/
structure FSState where
  destExists : Bool
  destContents : List Entry
  binDir : List String
deriving Repr, DecidableEq

/-- Copying files into `BINARY_DIR` (line 110): each copy preserves the
basename and overwrites an existing file of that name, so the name set
gains exactly the names not already present. -/
def copyToBin (bin : List String) (names : List String) : List String :=
  names.foldl (fun acc n => if n ∈ acc then acc else acc ++ [n]) bin

/-- Lines 86-114: `extract_archive`.  Steps: wipe any pre-existing
destination directory (lines 88-89), `os.mkdir` it fresh (line 90,
raising if it still existed), dispatch on the suffix (lines 93-101,
unknown suffix warns and returns), run the decode subprocess with
`check=True` (line 103, error on failure), then walk the tree and copy
every executable entry into `BINARY_DIR` (lines 105-111), returning the
list of executable paths found. -/
def extract_archive (filename : String) (archive : List Entry) (tarOk : Bool)
    (s : FSState) : Except String (FSState × List String) :=
  let s0 : FSState :=
    if s.destExists then { s with destExists := false, destContents := [] } else s
  if s0.destExists then .error "FileExistsError"
  else
    let s1 : FSState := { s0 with destExists := true, destContents := [] }
    if knownSuffix filename then
      if tarOk then
        let execs := (archive.filter (fun e => e.isExec)).map (fun e => e.path)
        let s2 : FSState := ⟨true, archive, copyToBin s1.binDir (execs.map basename)⟩
        .ok (s2, execs)
      else .error "CalledProcessError"
    else .ok (s1, [])

/-! ## Helper lemmas -/

/-- Unfolding `copyToBin` one copied name at a time. -/
theorem copyToBin_cons (bin : List String) (n : String) (ns : List String) :
    copyToBin bin (n :: ns) = copyToBin (if n ∈ bin then bin else bin ++ [n]) ns := rfl

/-- Names already in the binary directory survive further copies. -/
theorem mem_copyToBin_of_mem (bin names : List String) (m : String) (h : m ∈ bin) :
    m ∈ copyToBin bin names := by
  induction names generalizing bin with
  | nil => exact h
  | cons n ns ih =>
    rw [copyToBin_cons]
    apply ih
    split
    · exact h
    · exact List.mem_append_left _ h

/-- Every copied name ends up in the binary directory. -/
theorem mem_copyToBin_of_mem_names (bin names : List String) (m : String)
    (h : m ∈ names) : m ∈ copyToBin bin names := by
  induction names generalizing bin with
  | nil => cases h
  | cons n ns ih =>
    rw [copyToBin_cons]
    rcases List.mem_cons.mp h with rfl | hm
    · apply mem_copyToBin_of_mem
      split
      · assumption
      · exact List.mem_append_right _ (List.mem_singleton_self _)
    · exact ih _ hm

/-- Copying names that are all already present changes nothing. -/
theorem copyToBin_eq_of_sub (bin names : List String) (h : ∀ n ∈ names, n ∈ bin) :
    copyToBin bin names = bin := by
  induction names with
  | nil => rfl
  | cons n ns ih =>
    rw [copyToBin_cons, if_pos (h n (List.mem_cons_self n ns))]
    exact ih fun x hx => h x (List.mem_cons_of_mem _ hx)

/-- Copying the same name set twice is the same as copying it once. -/
theorem copyToBin_idem (bin names : List String) :
    copyToBin (copyToBin bin names) names = copyToBin bin names :=
  copyToBin_eq_of_sub _ _ fun _ hn => mem_copyToBin_of_mem_names _ _ _ hn

/-- Closed form of `extract_archive`: the wipe-then-mkdir prelude never
fails and erases any dependence on the prior destination directory, so
the result depends on the prior state only through the binary directory. -/
theorem extract_archive_eq (filename : String) (archive : List Entry) (tarOk : Bool)
    (s : FSState) :
    extract_archive filename archive tarOk s =
      if knownSuffix filename then
        if tarOk then
          .ok (⟨true, archive,
              copyToBin s.binDir
                (((archive.filter fun e => e.isExec).map fun e => e.path).map basename)⟩,
            (archive.filter fun e => e.isExec).map fun e => e.path)
        else .error "CalledProcessError"
      else .ok (⟨true, [], s.binDir⟩, []) := by
  unfold extract_archive
  by_cases hd : s.destExists <;> simp [hd]

/-! ## Claim theorems -/

/-- C1: the claim states that with preferMusl active the selector keeps
scanning past the first accept/reject-qualifying asset and picks a later
musl asset.  On the claim's own catalog (accept "64", empty reject list,
preferMusl set, non-musl asset first) the code selects NOTHING: the
`break` at line 133 fires on the first qualifying asset whether or not
the preference matched, so the later musl asset is never examined. -/
theorem selector_break_skips_musl_preference :
    selectAsset ACCEPT_FILTER [] true false
      [⟨"tool-linux-amd64.tar.gz", "u1"⟩, ⟨"tool-linux-amd64-musl.tar.gz", "u2"⟩]
      = none := by decide

/-- C2: for every catalog and every selection policy the selector returns
at most one asset (it returns an `Option`), and a returned asset's name
contains the accept substring and none of the reject substrings; in
particular an asset named "tool-darwin-amd64.tar.gz" is never selected
under the default reject list, whatever the preference flags. -/
theorem selector_sound :
    (∀ (accept : String) (rejects : List String) (pm ai : Bool)
        (assets : List Asset) (a : Asset),
      selectAsset accept rejects pm ai assets = some a →
      strContains a.name accept = true ∧ ∀ r ∈ rejects, strContains a.name r = false) ∧
    (∀ (pm ai : Bool) (assets : List Asset) (u : String),
      selectAsset ACCEPT_FILTER ignoreList pm ai assets ≠
        some ⟨"tool-darwin-amd64.tar.gz", u⟩) := by
  have main : ∀ (accept : String) (rejects : List String) (pm ai : Bool)
      (assets : List Asset) (a : Asset),
      selectAsset accept rejects pm ai assets = some a →
      strContains a.name accept = true ∧
        ∀ r ∈ rejects, strContains a.name r = false := by
    intro accept rejects pm ai assets
    induction assets with
    | nil => intro a h; simp [selectAsset] at h
    | cons hd tl ih =>
      intro a h
      rw [show selectAsset accept rejects pm ai (hd :: tl) =
          (if passesFilter accept rejects hd.name then
            if pm && strContains hd.name "musl" then some hd
            else if ai && strContains hd.name "AppImage" then some hd
            else if !pm && !ai then some hd
            else none
          else selectAsset accept rejects pm ai tl) from rfl] at h
      by_cases hp : passesFilter accept rejects hd.name = true
      · rw [if_pos hp] at h
        have ha : hd = a := by
          split at h
          · exact Option.some.inj h
          · split at h
            · exact Option.some.inj h
            · split at h
              · exact Option.some.inj h
              · exact absurd h (by simp)
        subst ha
        rw [passesFilter, Bool.and_eq_true, Bool.not_eq_true'] at hp
        obtain ⟨h1, h2⟩ := hp
        refine ⟨h1, ?_⟩
        intro r hr
        cases hcc : strContains hd.name r
        · rfl
        · have hany : rejects.any (fun x => strContains hd.name x) = true :=
            List.any_eq_true.mpr ⟨r, hr, hcc⟩
          rw [hany] at h2
          cases h2
      · rw [if_neg hp] at h
        exact ih a h
  refine ⟨main, ?_⟩
  intro pm ai assets u h
  obtain ⟨-, h2⟩ := main _ _ _ _ _ _ h
  have hdw : strContains "tool-darwin-amd64.tar.gz" "darwin" = false :=
    h2 "darwin" (by decide)
  exact absurd hdw (by decide)

/-- Witness for C2 at a concrete selection: the default policy on a
one-asset catalog selects "tool-linux-amd64.tar.gz", which contains "64"
and none of the default reject substrings. -/
theorem selector_sound_witness :
    strContains (Asset.name ⟨"tool-linux-amd64.tar.gz", "u"⟩) "64" = true ∧
    ∀ r ∈ ignoreList,
      strContains (Asset.name ⟨"tool-linux-amd64.tar.gz", "u"⟩) r = false :=
  selector_sound.1 "64" ignoreList false false
    [⟨"tool-linux-amd64.tar.gz", "u"⟩] ⟨"tool-linux-amd64.tar.gz", "u"⟩ (by decide)

/-- C3: the claim states deb/rpm/apk assets are never selected under the
default policy.  In the code the reject entries are the literal strings
"deb$", "rpm$", "apk$" (regex anchors matched by Python `in` as plain
characters), which do not occur in "tool-linux-amd64.deb", so the deb
asset passes the filter and IS selected. -/
theorem deb_asset_selected_default_policy :
    selectAsset ACCEPT_FILTER ignoreList false false
      [⟨"tool-linux-amd64.deb", "u"⟩] = some ⟨"tool-linux-amd64.deb", "u"⟩ := by decide

/-- C4 counterexample: in a two-project batch where project "p1" selects
an asset but its wget download fails, the claim says "p2" is still
processed.  In the code `subprocess.run([...], check=True)` at line 139
raises an uncaught `CalledProcessError`, which unwinds past the `main`
loop: only "p1" is processed and the run aborts with exit status 1. -/
theorem download_failure_stops_batch_cex :
    runMain ["p1", "p2"] none false false false
      (fun _ => (⟨false, .responded 200,
        [⟨"tool-linux-amd64.tar.gz", "https://x/tool-linux-amd64.tar.gz"⟩],
        false, true⟩ : ProjEnv)) = ⟨1, ["p1"], true⟩ := by decide

/-- C4 amended: an archive download failure is NOT per-project
recoverable.  When the catalog fetch succeeded, an asset was selected
and dev mode is off, a failing wget subprocess crashes the project's
processing and aborts the whole batch: no later project is processed. -/
theorem download_failure_aborts_batch (pm ai : Bool) (envs : String → ProjEnv)
    (p : String) (rest : List String) (a : Asset)
    (hfetch : (envs p).fetchOutcome = .responded 200)
    (hsel : selectAsset ACCEPT_FILTER ignoreList pm ai (envs p).assets = some a)
    (hwget : (envs p).wgetOk = false) :
    (processProject false pm ai (envs p)).crashed = true ∧
    runProjects false pm ai envs (p :: rest) = ([p], true) := by
  have hdl : download_asset_list false (envs p) = some true := by
    simp [download_asset_list, hfetch]
  have hpp : processProject false pm ai (envs p) = ⟨true, true, some a, true⟩ := by
    simp [processProject, hdl, truthy, hsel, hwget]
  refine ⟨by simp [hpp], ?_⟩
  simp [runProjects, hpp]

/-- Witness for C4 amended: one concrete aborted batch. -/
theorem download_failure_aborts_batch_witness :
    (processProject false false false
      (⟨false, .responded 200,
        [⟨"tool-linux-amd64.tar.gz", "https://x/tool-linux-amd64.tar.gz"⟩],
        false, true⟩ : ProjEnv)).crashed = true ∧
    runProjects false false false
      (fun _ => (⟨false, .responded 200,
        [⟨"tool-linux-amd64.tar.gz", "https://x/tool-linux-amd64.tar.gz"⟩],
        false, true⟩ : ProjEnv)) ["p1", "p2"] = (["p1"], true) :=
  download_failure_aborts_batch false false
    (fun _ => (⟨false, .responded 200,
      [⟨"tool-linux-amd64.tar.gz", "https://x/tool-linux-amd64.tar.gz"⟩],
      false, true⟩ : ProjEnv)) "p1" ["p2"]
    ⟨"tool-linux-amd64.tar.gz", "https://x/tool-linux-amd64.tar.gz"⟩
    rfl (by decide) rfl

/-- C5 counterexample: the claim says a non-empty resolved project list
always exits with status 0.  With one project whose wget download fails,
the uncaught subprocess error makes the interpreter exit with status 1. -/
theorem nonempty_batch_exit_one_cex :
    resolveProjects ["p1"] none ≠ [] ∧
    (runMain ["p1"] none false false false
      (fun _ => (⟨false, .responded 200,
        [⟨"tool-linux-amd64.tar.gz", "https://x/tool-linux-amd64.tar.gz"⟩],
        false, true⟩ : ProjEnv))).exitCode = 1 := by decide

/-- C5 amended: the exit status is 1 when the resolved project list is
empty, and for a non-empty list it is 0 exactly when no uncaught archive
download or extraction subprocess failure aborted the run; per-project
recoverable failures (catalog fetch errors, no asset match, unknown
archive suffix) do not affect it. -/
theorem exit_code_spec (cli : List String) (fileLines : Option (List String))
    (devMode pm ai : Bool) (envs : String → ProjEnv) :
    (resolveProjects cli fileLines = [] →
      (runMain cli fileLines devMode pm ai envs).exitCode = 1) ∧
    ((runMain cli fileLines devMode pm ai envs).exitCode = 0 ↔
      resolveProjects cli fileLines ≠ [] ∧
        (runMain cli fileLines devMode pm ai envs).aborted = false) := by
  constructor
  · intro h0
    simp [runMain, h0]
  · by_cases he : resolveProjects cli fileLines = []
    · simp [runMain, he]
    · have hne : (resolveProjects cli fileLines).isEmpty = false := by
        simpa [List.isEmpty_iff] using he
      simp only [runMain, hne, Bool.false_eq_true, if_false, he, ne_eq,
        not_false_eq_true, true_and]
      cases hab : (runProjects devMode pm ai envs (resolveProjects cli fileLines)).2 <;>
        simp [hab]

/-- Witness for C5 amended: an empty command line with no project file
resolves to the empty list and exits with status 1. -/
theorem exit_code_spec_witness :
    (runMain [] none false false false
      (fun _ => (⟨false, .raised, [], true, true⟩ : ProjEnv))).exitCode = 1 :=
  (exit_code_spec [] none false false false
    (fun _ => (⟨false, .raised, [], true, true⟩ : ProjEnv))).1 rfl

/-- C6: the claim says that in dev mode with the catalog cache present,
the selector still runs on the cached catalog.  In the code the bare
`return` at line 68 yields `None`, which is falsy, so the guard at line
172 skips `download_and_extract_archive` entirely: the selector never
runs and the project is silently skipped, even though its cached catalog
holds a selectable asset. -/
theorem dev_cache_hit_skips_selector :
    download_asset_list true
      (⟨true, .responded 200, [⟨"tool-linux-amd64.tar.gz", "u"⟩], true, true⟩ : ProjEnv)
      = none ∧
    processProject true false false
      (⟨true, .responded 200, [⟨"tool-linux-amd64.tar.gz", "u"⟩], true, true⟩ : ProjEnv)
      = ⟨false, false, none, false⟩ := by decide

/-- C7: the claim says a project file of only blank and comment-only
lines resolves to an empty list (hence exit status 1) and that resolved
identifiers are never empty.  In the code a comment-only line passes the
`line.strip()` filter and `split('#', 1)[0]` maps it to the EMPTY
string, so the resolved list is `[""]`, which is non-empty: `main` does
not exit 1 and processes the empty project identifier. -/
theorem comment_only_file_nonempty_projects :
    resolveProjects [] (some ["# tool comment"]) = [""] ∧
    (runMain [] (some ["# tool comment"]) false false false
      (fun _ => (⟨false, .responded 404, [], true, true⟩ : ProjEnv))).exitCode = 0 ∧
    (runMain [] (some ["# tool comment"]) false false false
      (fun _ => (⟨false, .responded 404, [], true, true⟩ : ProjEnv))).processed
      = [""] := by decide

/-- C8: a non-success HTTP status from the catalog fetch makes
`download_asset_list` report failure (return `False`), write no cache
file, and crash nothing; the `main` loop goes on to process the
remaining projects exactly as it would have without this project's
failure. -/
theorem http_error_is_recoverable (devMode pm ai : Bool) (envs : String → ProjEnv)
    (p : String) (rest : List String) (c : Nat)
    (hnc : (devMode && (envs p).cacheExists) = false)
    (hresp : (envs p).fetchOutcome = .responded c)
    (hc : c ≠ 200) :
    download_asset_list devMode (envs p) = some false ∧
    cacheWritten devMode (envs p) = false ∧
    (processProject devMode pm ai (envs p)).crashed = false ∧
    runProjects devMode pm ai envs (p :: rest) =
      (p :: (runProjects devMode pm ai envs rest).1,
        (runProjects devMode pm ai envs rest).2) := by
  have hb : (c == 200) = false := by
    cases hcb : (c == 200)
    · rfl
    · exact absurd (eq_of_beq hcb) hc
  have hdl : download_asset_list devMode (envs p) = some false := by
    simp [download_asset_list, hnc, hresp, hb]
  have hcw : cacheWritten devMode (envs p) = false := by
    simp [cacheWritten, hnc, hresp, hb]
  have hpp : processProject devMode pm ai (envs p) = ⟨true, false, none, false⟩ := by
    have hnc2 : (devMode && (envs p).cacheExists) = false := hnc
    simp [processProject, hdl, truthy, hnc2]
  refine ⟨hdl, hcw, by simp [hpp], ?_⟩
  simp [runProjects, hpp]

/-- Witness for C8: a concrete 404 on project "p1" in a two-project
batch; "p2" is still processed. -/
theorem http_error_is_recoverable_witness :
    download_asset_list false (⟨false, .responded 404, [], true, true⟩ : ProjEnv)
      = some false ∧
    cacheWritten false (⟨false, .responded 404, [], true, true⟩ : ProjEnv) = false ∧
    (processProject false false false
      (⟨false, .responded 404, [], true, true⟩ : ProjEnv)).crashed = false ∧
    runProjects false false false
      (fun _ => (⟨false, .responded 404, [], true, true⟩ : ProjEnv)) ["p1", "p2"] =
      ("p1" :: (runProjects false false false
          (fun _ => (⟨false, .responded 404, [], true, true⟩ : ProjEnv)) ["p2"]).1,
        (runProjects false false false
          (fun _ => (⟨false, .responded 404, [], true, true⟩ : ProjEnv)) ["p2"]).2) :=
  http_error_is_recoverable false false false
    (fun _ => (⟨false, .responded 404, [], true, true⟩ : ProjEnv)) "p1" ["p2"] 404
    rfl rfl (by decide)

/-- C9: extraction is idempotent.  Any pre-existing destination
directory is recursively deleted and recreated empty before unpacking
(lines 88-90), so a successful extraction can be re-run on its own
result state: the second run succeeds with the same final state and the
same list of copied executables, and the destination directory holds
exactly the archive's entries (known suffix) or nothing (unknown
suffix), never stale content. -/
theorem extract_archive_idempotent (filename : String) (archive : List Entry)
    (tarOk : Bool) (s s1 : FSState) (e1 : List String)
    (h : extract_archive filename archive tarOk s = .ok (s1, e1)) :
    extract_archive filename archive tarOk s1 = .ok (s1, e1) ∧
    s1.destExists = true ∧
    s1.destContents = (if knownSuffix filename then archive else []) := by
  rw [extract_archive_eq] at h
  by_cases hk : knownSuffix filename = true
  · by_cases ht : tarOk = true
    · rw [if_pos hk, if_pos ht] at h
      simp only [Except.ok.injEq, Prod.mk.injEq] at h
      obtain ⟨hs, he⟩ := h
      subst hs
      subst he
      refine ⟨?_, rfl, by simp [hk]⟩
      rw [extract_archive_eq, if_pos hk, if_pos ht]
      simp [copyToBin_idem]
    · rw [if_pos hk, if_neg ht] at h
      cases h
  · rw [if_neg hk] at h
    simp only [Except.ok.injEq, Prod.mk.injEq] at h
    obtain ⟨hs, he⟩ := h
    subst hs
    subst he
    refine ⟨?_, rfl, by simp [hk]⟩
    rw [extract_archive_eq, if_neg hk]

/-- Witness for C9: re-running a concrete successful extraction of an
archive with one executable and one plain file reproduces the same state
and the same copied-executable list. -/
theorem extract_archive_idempotent_witness :
    extract_archive "tool.tar.gz" [⟨"bin/tool", true⟩, ⟨"README.md", false⟩] true
      (⟨true, [⟨"bin/tool", true⟩, ⟨"README.md", false⟩], ["other", "tool"]⟩ : FSState)
      = .ok (⟨true, [⟨"bin/tool", true⟩, ⟨"README.md", false⟩], ["other", "tool"]⟩,
        ["bin/tool"]) ∧
    (⟨true, [⟨"bin/tool", true⟩, ⟨"README.md", false⟩],
      ["other", "tool"]⟩ : FSState).destExists = true ∧
    (⟨true, [⟨"bin/tool", true⟩, ⟨"README.md", false⟩],
        ["other", "tool"]⟩ : FSState).destContents =
      (if knownSuffix "tool.tar.gz"
        then [⟨"bin/tool", true⟩, ⟨"README.md", false⟩] else []) :=
  extract_archive_idempotent "tool.tar.gz" [⟨"bin/tool", true⟩, ⟨"README.md", false⟩]
    true (⟨true, [⟨"stale", true⟩], ["other"]⟩ : FSState)
    (⟨true, [⟨"bin/tool", true⟩, ⟨"README.md", false⟩], ["other", "tool"]⟩ : FSState)
    ["bin/tool"] rfl

/-- C10: all asset-name matching is case-sensitive.  The default reject
entry "darwin" does not match the capitalized "Darwin"; with the
AppImage preference active a lowercase "appimage" asset fails the
preference check (and is therefore not selected at all), while a
properly capitalized "AppImage" asset is selected; and the musl marker
likewise fails on an uppercase "MUSL" name. -/
theorem selector_matching_case_sensitive :
    strContains "tool-Darwin-x64.tar.gz" "darwin" = false ∧
    selectAsset ACCEPT_FILTER ignoreList false true
      [⟨"tool-x64.appimage", "u"⟩] = none ∧
    selectAsset ACCEPT_FILTER ignoreList false true
      [⟨"tool-x64.AppImage", "u"⟩] = some ⟨"tool-x64.AppImage", "u"⟩ ∧
    strContains "tool-linux-amd64-MUSL.tar.gz" "musl" = false := by decide
